import Mathlib

set_option maxRecDepth 8000

/-!
Shallow embedding of the Real-Time Chat server core
(`src/backend/server.js` and, where it differs, `src/backend/server-secure.js`).

JavaScript `Map`s are modelled as association lists with JS `Map` semantics
(`set` updates in place or appends, `delete` removes the entry, `get` looks
up); JS `Set`s of user ids are insertion-ordered duplicate-free lists.
Fresh uuids and timestamps are modelled by a counter threaded through the
server state.  String `.trim()` is modelled over the characters the inputs
contain (ASCII whitespace).
-/

namespace Chat

/-- JS-whitespace test used by `trim` and the `\s` character class. -/
def isWs (c : Char) : Bool :=
  c = ' ' || c = '\t' || c = '\n' || c = '\r' || c = '\x0b' || c = '\x0c'

/-- Model of JavaScript `String.prototype.trim`. -/
def jsTrim (s : String) : String :=
  ⟨((s.data.dropWhile isWs).reverse.dropWhile isWs).reverse⟩

/-- `Map.get`: first entry with the given key, if any. -/
def alGet {K V : Type} [DecidableEq K] : List (K × V) → K → Option V
  | [], _ => none
  | (k', v) :: t, k => if k = k' then some v else alGet t k

/-- `Map.set`: update the entry in place if present, else append. -/
def alSet {K V : Type} [DecidableEq K] : List (K × V) → K → V → List (K × V)
  | [], k, v => [(k, v)]
  | (k', v') :: t, k, v =>
    if k = k' then (k, v) :: t else (k', v') :: alSet t k v

/-- `Map.delete`: remove the entry with the given key. -/
def alDel {K V : Type} [DecidableEq K] : List (K × V) → K → List (K × V)
  | [], _ => []
  | (k', v') :: t, k => if k = k' then t else (k', v') :: alDel t k

/-- `Set.add`: no-op if present, else append (insertion order kept). -/
def setAdd (l : List Nat) (x : Nat) : List Nat :=
  if x ∈ l then l else l ++ [x]

/-- `Set.delete`. -/
def setDel (l : List Nat) (x : Nat) : List Nat :=
  l.filter (fun y => y ≠ x)

/-- `Array.prototype.slice(-n)`: the last `n` elements. -/
def takeLast {α : Type} (n : Nat) (l : List α) : List α :=
  l.drop (l.length - n)

/-- Message kind: `type: 'user'` or `type: 'system'`. -/
inductive MsgType where
  | user
  | system
deriving Repr, DecidableEq

/-- A chat message object as built by the handlers
(`{id, username, message, timestamp, type}`); uuids and ISO timestamps
are both modelled as counter values. -/
structure Message where
  id : Nat
  username : String
  message : String
  timestamp : Nat
  type : MsgType
deriving Repr, DecidableEq

/-- A user record `{id, username, room, socketId}` (the secure server's
extra `joinTime` metadata field is elided; no claim depends on it). -/
structure User where
  id : Nat
  username : String
  room : String
  socketId : Nat
deriving Repr, DecidableEq

/-- A room record `{users: Set(), messages: []}` (the secure server's
`createdAt` metadata field is elided; no claim depends on it). -/
structure Room where
  users : List Nat
  messages : List Message
deriving Repr, DecidableEq

/-- The in-memory `storage` object: `users`, `rooms`, `sockets`,
`typingUsers`. -/
structure Storage where
  users : List (Nat × User)
  rooms : List (String × Room)
  sockets : List (Nat × Nat)
  typingUsers : List (String × List Nat)
deriving Repr, DecidableEq

/-- `StorageUtils.addUser` from server.js lines 40-54. -/
def addUser (st : Storage) (userId : Nat) (username room : String)
    (socketId : Nat) : User × Storage :=
  let user : User := ⟨userId, username, room, socketId⟩
  let st1 : Storage :=
    { st with users := alSet st.users userId user, sockets := alSet st.sockets socketId userId }
  let st2 : Storage :=
    if (alGet st1.rooms room).isSome then st1
    else { st1 with rooms := alSet st1.rooms room ⟨[], []⟩ }
  let st3 : Storage :=
    match alGet st2.rooms room with
    | some r =>
        let r' : Room := { r with users := setAdd r.users userId }
        { st2 with rooms := alSet st2.rooms room r' }
    | none => st2
  (user, st3)

/-- The room-and-typing cleanup block of `StorageUtils.removeUser`
(server.js lines 64-73): delete the user from the room's member set and
from the room's typing set, when the room exists. -/
def removeUserCleanup (st : Storage) (userId : Nat) (roomName : String) : Storage :=
  match alGet st.rooms roomName with
  | none => st
  | some room =>
    let room' : Room := { room with users := setDel room.users userId }
    let stR : Storage := { st with rooms := alSet st.rooms roomName room' }
    match alGet stR.typingUsers roomName with
    | none => stR
    | some tset =>
      { stR with typingUsers := alSet stR.typingUsers roomName (setDel tset userId) }

/-- `StorageUtils.removeUser` from server.js lines 57-80. -/
def removeUser (st : Storage) (socketId : Nat) : Option User × Storage :=
  match alGet st.sockets socketId with
  | none => (none, st)
  | some userId =>
    match alGet st.users userId with
    | none => (none, st)
    | some user =>
      let st1 := removeUserCleanup st userId user.room
      (some user,
        { st1 with users := alDel st1.users userId, sockets := alDel st1.sockets socketId })

/-- `StorageUtils.getUserBySocketId` from server.js lines 83-86. -/
def getUserBySocketId (st : Storage) (socketId : Nat) : Option User :=
  (alGet st.sockets socketId).bind (fun userId => alGet st.users userId)

/-- `StorageUtils.getUsersInRoom` from server.js lines 89-94:
`Array.from(room.users).map(get).filter(Boolean)`. -/
def getUsersInRoom (st : Storage) (roomName : String) : List User :=
  match alGet st.rooms roomName with
  | none => []
  | some room => room.users.filterMap (fun userId => alGet st.users userId)

/-- The retention step of `addMessage` (server.js lines 101-104): keep
only the last `cap` messages when the log exceeds `cap`. -/
def trimCap (cap : Nat) (msgs : List Message) : List Message :=
  if msgs.length > cap then takeLast cap msgs else msgs

/-- `StorageUtils.addMessage` from server.js lines 97-106, with the
retention capacity (hard-coded 100 there, 50 in the secure variant) as a
configuration constant per spec §9. -/
def addMessage (cap : Nat) (st : Storage) (roomName : String)
    (message : Message) : Storage :=
  match alGet st.rooms roomName with
  | none => st
  | some room =>
    let msgs' := trimCap cap (room.messages ++ [message])
    { st with rooms := alSet st.rooms roomName { room with messages := msgs' } }

/-- `StorageUtils.getRoomMessages` from server.js lines 109-112. -/
def getRoomMessages (st : Storage) (roomName : String) : List Message :=
  match alGet st.rooms roomName with
  | none => []
  | some room => room.messages

/-- `StorageUtils.setTyping` from server.js lines 115-128. -/
def setTyping (st : Storage) (userId : Nat) (roomName : String)
    (isTyping : Bool) : List User × Storage :=
  let cur := (alGet st.typingUsers roomName).getD []
  let cur' := if isTyping then setAdd cur userId else setDel cur userId
  (cur'.filterMap (fun uid => alGet st.users uid),
   { st with typingUsers := alSet st.typingUsers roomName cur' })

/-- Audience of one outbound `emit` call: `socket.emit` (sender only),
`socket.to(room).emit` (room minus sender), `io.to(room).emit` (whole room). -/
inductive Audience where
  | toSender (sock : Nat)
  | toRoomExceptSender (room : String) (sock : Nat)
  | toRoom (room : String)
deriving Repr, DecidableEq

/-- Outbound events of the wire protocol. -/
inductive OutEvent where
  | message (m : Message)
  | roomHistory (ms : List Message)
  | onlineUsers (us : List User)
  | typing (us : List User)
  | errorEv (msg : String)
  | leftRoom
deriving Repr, DecidableEq

/-- Server state: the storage plus the counter modelling uuid/timestamp
generation. -/
structure SState where
  st : Storage
  ctr : Nat
deriving Repr, DecidableEq

/-- Allocate a fresh uuid (modelled as the next counter value). -/
def fresh (s : SState) : Nat × SState :=
  (s.ctr, { s with ctr := s.ctr + 1 })

/-- The empty initial storage. -/
def init : SState := ⟨⟨[], [], [], []⟩, 0⟩

/-- The `joinRoom` handler from server.js lines 149-194.  Validation is JS
string truthiness (`!username || !room`); the user is stored with trimmed
name and room while the broadcasts, history lookup and room audience use
the raw strings, exactly as in the source. -/
def joinRoom (s : SState) (sock : Nat) (username room : String) :
    List (Audience × OutEvent) × SState :=
  if username = "" ∨ room = "" then
    ([(.toSender sock, .errorEv "Username and room are required")], s)
  else
    let (userId, s1) := fresh s
    let (_, st1) := addUser s1.st userId (jsTrim username) (jsTrim room) sock
    let s2 : SState := { s1 with st := st1 }
    let (wid, s3) := fresh s2
    let welcome : Message :=
      ⟨wid, "System", "Welcome to " ++ room ++ ", " ++ username ++ "!", wid, .system⟩
    let (jid, s4) := fresh s3
    let joined : Message :=
      ⟨jid, "System", username ++ " has joined the chat", jid, .system⟩
    ([(.toSender sock, .message welcome),
      (.toRoomExceptSender room sock, .message joined),
      (.toSender sock, .roomHistory (getRoomMessages s4.st room)),
      (.toRoom room, .onlineUsers (getUsersInRoom s4.st room))], s4)

/-- The `sendMessage` handler from server.js lines 197-229 (capacity is
the retention constant passed to `addMessage`). -/
def sendMessage (cap : Nat) (s : SState) (sock : Nat) (body : String) :
    List (Audience × OutEvent) × SState :=
  match getUserBySocketId s.st sock with
  | none => ([(.toSender sock, .errorEv "User not found")], s)
  | some user =>
    if body = "" ∨ jsTrim body = "" then
      ([(.toSender sock, .errorEv "Message cannot be empty")], s)
    else
      let (mid, s1) := fresh s
      let mobj : Message := ⟨mid, user.username, jsTrim body, mid, .user⟩
      let st1 := addMessage cap s1.st user.room mobj
      ([(.toRoom user.room, .message mobj)], { s1 with st := st1 })

/-- The `typing` handler from server.js lines 232-246: an event from a
socket with no registered user returns silently. -/
def typingH (s : SState) (sock : Nat) (isTyping : Bool) :
    List (Audience × OutEvent) × SState :=
  match getUserBySocketId s.st sock with
  | none => ([], s)
  | some user =>
    let (tUsers, st1) := setTyping s.st user.id user.room isTyping
    ([(.toRoomExceptSender user.room sock,
        .typing (tUsers.filter (fun u => u.id ≠ user.id)))],
     { s with st := st1 })

/-- The `disconnect` handler from server.js lines 249-272.  Both
broadcasts go through `socket.to(user.room)` (room minus sender). -/
def disconnectH (s : SState) (sock : Nat) :
    List (Audience × OutEvent) × SState :=
  let (u, st1) := removeUser s.st sock
  match u with
  | none => ([], { s with st := st1 })
  | some user =>
    let s1 : SState := { s with st := st1 }
    let (lid, s2) := fresh s1
    let leftMsg : Message :=
      ⟨lid, "System", user.username ++ " has left the chat", lid, .system⟩
    ([(.toRoomExceptSender user.room sock, .message leftMsg),
      (.toRoomExceptSender user.room sock,
        .onlineUsers (getUsersInRoom s2.st user.room))], s2)

/-- The `leaveRoom` handler from server.js lines 275-304. -/
def leaveRoomH (s : SState) (sock : Nat) :
    List (Audience × OutEvent) × SState :=
  let (u, st1) := removeUser s.st sock
  match u with
  | none => ([], { s with st := st1 })
  | some user =>
    let s1 : SState := { s with st := st1 }
    let (lid, s2) := fresh s1
    let leftMsg : Message :=
      ⟨lid, "System", user.username ++ " has left the chat", lid, .system⟩
    ([(.toRoomExceptSender user.room sock, .message leftMsg),
      (.toRoomExceptSender user.room sock,
        .onlineUsers (getUsersInRoom s2.st user.room)),
      (.toSender sock, .leftRoom)], s2)

/-- Inbound events of the wire protocol. -/
inductive InEvent where
  | join (sock : Nat) (username room : String)
  | send (sock : Nat) (body : String)
  | typing (sock : Nat) (isTyping : Bool)
  | leave (sock : Nat)
  | disconnect (sock : Nat)
deriving Repr, DecidableEq

/-- Dispatch one inbound event (the single-writer execution model of
spec §5: each event is processed to completion). -/
def stepEv (cap : Nat) (s : SState) : InEvent → List (Audience × OutEvent) × SState
  | .join sock username room => joinRoom s sock username room
  | .send sock body => sendMessage cap s sock body
  | .typing sock isTyping => typingH s sock isTyping
  | .leave sock => leaveRoomH s sock
  | .disconnect sock => disconnectH s sock

/-- Run a sequence of inbound events. -/
def runEvents (cap : Nat) (s : SState) : List InEvent → SState
  | [] => s
  | e :: t => runEvents cap (stepEv cap s e).2 t

/-! ### Secure-server variants (`src/backend/server-secure.js`)

The external `xss` sanitizer library is not part of this repository; the
secure definitions are parametric in it (`xssF`). -/

/-- `sanitizeInput` from server-secure.js lines 77-80:
`xss(input.trim().substring(0, 1000))`; the truncation is taken on the
character list. -/
def sanitizeInput (xssF : String → String) (s : String) : String :=
  xssF ⟨(jsTrim s).data.take 1000⟩

/-- The `[a-zA-Z0-9_\s]` character class of the validation regexes. -/
def isWordOrWs (c : Char) : Bool :=
  (('a' ≤ c && c ≤ 'z') || ('A' ≤ c && c ≤ 'Z') ||
   ('0' ≤ c && c ≤ '9') || c = '_' || isWs c)

/-- `/^[a-zA-Z0-9_\s]+$/.test s`. -/
def wordRegexTest (s : String) : Bool :=
  !s.data.isEmpty && s.data.all isWordOrWs

/-- `isValidUsername` from server-secure.js lines 83-87. -/
def isValidUsername (xssF : String → String) (username : String) : Bool :=
  if username = "" then false
  else
    let s := sanitizeInput xssF username
    decide (2 ≤ s.length) && decide (s.length ≤ 20) && wordRegexTest s

/-- `isValidRoomName` from server-secure.js lines 90-94. -/
def isValidRoomName (xssF : String → String) (room : String) : Bool :=
  if room = "" then false
  else
    let s := sanitizeInput xssF room
    decide (2 ≤ s.length) && decide (s.length ≤ 30) && wordRegexTest s

/-- `StorageUtils.addMessage` from server-secure.js lines 191-207:
sanitizes message and username, then retains the last 50 entries. -/
def addMessageS (xssF : String → String) (st : Storage) (roomName : String)
    (message : Message) : Storage :=
  match alGet st.rooms roomName with
  | none => st
  | some room =>
    let m' : Message := { message with
      message := sanitizeInput xssF message.message,
      username := sanitizeInput xssF message.username }
    let msgs' := trimCap 50 (room.messages ++ [m'])
    { st with rooms := alSet st.rooms roomName { room with messages := msgs' } }

/-- `StorageUtils.addUser` from server-secure.js lines 124-148: sanitizes
the username and room again for the stored user record, while the `rooms`
map is keyed on the argument as passed (the `joinTime` metadata field is
elided). -/
def addUserS (xssF : String → String) (st : Storage) (userId : Nat)
    (username room : String) (socketId : Nat) : User × Storage :=
  let user : User := ⟨userId, sanitizeInput xssF username, sanitizeInput xssF room, socketId⟩
  let st1 : Storage :=
    { st with users := alSet st.users userId user, sockets := alSet st.sockets socketId userId }
  let st2 : Storage :=
    if (alGet st1.rooms room).isSome then st1
    else { st1 with rooms := alSet st1.rooms room ⟨[], []⟩ }
  let st3 : Storage :=
    match alGet st2.rooms room with
    | some r =>
        let r' : Room := { r with users := setAdd r.users userId }
        { st2 with rooms := alSet st2.rooms room r' }
    | none => st2
  (user, st3)

/-- The secure `joinRoom` handler from server-secure.js lines 267-315. -/
def joinRoomS (xssF : String → String) (s : SState) (sock : Nat)
    (username room : String) : List (Audience × OutEvent) × SState :=
  if ¬ (isValidUsername xssF username = true) ∨ ¬ (isValidRoomName xssF room = true) then
    ([(.toSender sock, .errorEv "Invalid username or room name")], s)
  else
    let su := sanitizeInput xssF username
    let sr := sanitizeInput xssF room
    let (userId, s1) := fresh s
    let (_, st1) := addUserS xssF s1.st userId su sr sock
    let s2 : SState := { s1 with st := st1 }
    let (wid, s3) := fresh s2
    let welcome : Message :=
      ⟨wid, "System", "Welcome to " ++ sr ++ ", " ++ su ++ "!", wid, .system⟩
    let (jid, s4) := fresh s3
    let joined : Message :=
      ⟨jid, "System", su ++ " has joined the chat", jid, .system⟩
    ([(.toSender sock, .message welcome),
      (.toRoomExceptSender sr sock, .message joined),
      (.toSender sock, .roomHistory (getRoomMessages s4.st sr)),
      (.toRoom sr, .onlineUsers (getUsersInRoom s4.st sr))], s4)

/-- The secure `typing` handler from server-secure.js lines 360-374
(identical to the plain one up to the `!!isTyping` coercion). -/
def typingS (s : SState) (sock : Nat) (isTyping : Bool) :
    List (Audience × OutEvent) × SState :=
  match getUserBySocketId s.st sock with
  | none => ([], s)
  | some user =>
    let (tUsers, st1) := setTyping s.st user.id user.room (!(!isTyping))
    ([(.toRoomExceptSender user.room sock,
        .typing (tUsers.filter (fun u => u.id ≠ user.id)))],
     { s with st := st1 })

/-- Is an outbound event a `typing` broadcast? -/
def isTypingOut : OutEvent → Bool
  | .typing _ => true
  | _ => false

/-- Is an outbound event an `error` event? -/
def isErrorOut : OutEvent → Bool
  | .errorEv _ => true
  | _ => false

/-- The invariant claimed by the spec: at most one registered identity per
session — any two entries of the `users` map holding the same `socketId`
are the same entry. -/
def oneIdentityPerSession (st : Storage) : Prop :=
  ∀ p ∈ st.users, ∀ q ∈ st.users, p.2.socketId = q.2.socketId → p.1 = q.1

instance (st : Storage) : Decidable (oneIdentityPerSession st) := by
  unfold oneIdentityPerSession
  infer_instance

/-- Every room's message log is within the retention capacity. -/
def roomsBounded (cap : Nat) (st : Storage) : Prop :=
  ∀ r room, alGet st.rooms r = some room → room.messages.length ≤ cap

/-- Every room's message log holds only messages of kind `user`. -/
def roomsUserOnly (st : Storage) : Prop :=
  ∀ r room, alGet st.rooms r = some room → ∀ m ∈ room.messages, m.type = .user

/-!  ## Basic lemmas about the map model  -/

theorem alGet_alSet {K V : Type} [DecidableEq K] (m : List (K × V)) (k k' : K) (v : V) :
    alGet (alSet m k v) k' = if k' = k then some v else alGet m k' := by
  induction m with
  | nil =>
    by_cases h : k' = k <;> simp [alSet, alGet, h]
  | cons hd t ih =>
    obtain ⟨k0, v0⟩ := hd
    by_cases h1 : k = k0
    · subst h1
      by_cases h2 : k' = k <;> simp [alSet, alGet, h2]
    · by_cases h2 : k' = k0
      · subst h2
        have h3 : k' ≠ k := fun h => h1 h.symm
        simp [alSet, alGet, h1, h3]
      · by_cases h3 : k' = k
        · subst h3
          simp [alSet, alGet, h1, h2, ih]
        · simp [alSet, alGet, h1, h2, h3, ih]

theorem alGet_eq_none_of_not_mem_keys {K V : Type} [DecidableEq K]
    (m : List (K × V)) (k : K) (h : k ∉ m.map Prod.fst) : alGet m k = none := by
  induction m with
  | nil => rfl
  | cons hd t ih =>
    obtain ⟨k0, v0⟩ := hd
    simp only [List.map_cons, List.mem_cons] at h
    push_neg at h
    simp [alGet, h.1, ih h.2]

theorem alGet_alDel_self {K V : Type} [DecidableEq K] (m : List (K × V)) (k : K)
    (h : (m.map Prod.fst).Nodup) : alGet (alDel m k) k = none := by
  induction m with
  | nil => rfl
  | cons hd t ih =>
    obtain ⟨k0, v0⟩ := hd
    simp only [List.map_cons, List.nodup_cons] at h
    by_cases hk : k = k0
    · subst hk
      simp only [alDel, if_pos rfl]
      exact alGet_eq_none_of_not_mem_keys t k h.1
    · simp [alDel, alGet, hk, ih h.2]

/-!  ## Projection lemmas for the storage operations  -/

theorem addUser_users (st : Storage) (uid : Nat) (un rm : String) (sock : Nat) :
    (addUser st uid un rm sock).2.users = alSet st.users uid ⟨uid, un, rm, sock⟩ := by
  unfold addUser
  dsimp only
  split
  · split <;> rfl
  · split <;> rfl

theorem addUser_sockets (st : Storage) (uid : Nat) (un rm : String) (sock : Nat) :
    (addUser st uid un rm sock).2.sockets = alSet st.sockets sock uid := by
  unfold addUser
  dsimp only
  split
  · split <;> rfl
  · split <;> rfl

theorem addUser_typingUsers (st : Storage) (uid : Nat) (un rm : String) (sock : Nat) :
    (addUser st uid un rm sock).2.typingUsers = st.typingUsers := by
  unfold addUser
  dsimp only
  split
  · split <;> rfl
  · split <;> rfl

theorem removeUserCleanup_users (st : Storage) (uid : Nat) (rm : String) :
    (removeUserCleanup st uid rm).users = st.users := by
  unfold removeUserCleanup
  split
  · rfl
  · dsimp only
    split <;> rfl

theorem removeUserCleanup_sockets (st : Storage) (uid : Nat) (rm : String) :
    (removeUserCleanup st uid rm).sockets = st.sockets := by
  unfold removeUserCleanup
  split
  · rfl
  · dsimp only
    split <;> rfl

theorem setTyping_rooms (st : Storage) (uid : Nat) (rm : String) (b : Bool) :
    (setTyping st uid rm b).2.rooms = st.rooms := rfl

/-- Characterization of the rooms map after `addUser`. -/
theorem addUser_rooms (st : Storage) (uid : Nat) (un rm : String) (sock : Nat) :
    (addUser st uid un rm sock).2.rooms =
      match alGet st.rooms rm with
      | some r => alSet st.rooms rm { r with users := setAdd r.users uid }
      | none =>
          alSet (alSet st.rooms rm ⟨[], []⟩) rm ⟨setAdd [] uid, []⟩ := by
  unfold addUser
  dsimp only
  cases hval : alGet st.rooms rm
  · simp only [hval, Option.isSome_none, Bool.false_eq_true, if_false]
    have h2 : alGet (alSet st.rooms rm (⟨[], []⟩ : Room)) rm = some ⟨[], []⟩ := by
      rw [alGet_alSet, if_pos rfl]
    simp only [h2]
  · simp only [hval, Option.isSome_some, if_true]

/-- Lookup in the rooms map after `addUser`. -/
theorem alGet_addUser_rooms (st : Storage) (uid : Nat) (un rm : String)
    (sock : Nat) (r' : String) :
    alGet (addUser st uid un rm sock).2.rooms r' =
      if r' = rm then
        (match alGet st.rooms rm with
         | some r => some { r with users := setAdd r.users uid }
         | none => some ⟨setAdd [] uid, []⟩)
      else alGet st.rooms r' := by
  rw [addUser_rooms]
  cases hval : alGet st.rooms rm
  · by_cases hrr : r' = rm <;> simp [alGet_alSet, hrr]
  · by_cases hrr : r' = rm <;> simp [alGet_alSet, hrr]

/-- Effect of `addUser` on any room's message log: the log is empty (a
freshly created room) or exactly a log already present. -/
theorem addUser_rooms_messages (st : Storage) (uid : Nat) (un rm : String)
    (sock : Nat) (r' : String) (room' : Room)
    (h : alGet (addUser st uid un rm sock).2.rooms r' = some room') :
    room'.messages = [] ∨
      ∃ room, alGet st.rooms r' = some room ∧ room'.messages = room.messages := by
  rw [alGet_addUser_rooms] at h
  by_cases hrr : r' = rm
  · rw [if_pos hrr] at h
    cases hval : alGet st.rooms rm
    · rw [hval] at h
      cases h
      left
      rfl
    · rename_i r
      rw [hval] at h
      cases h
      right
      exact ⟨r, hrr ▸ hval, rfl⟩
  · rw [if_neg hrr] at h
    right
    exact ⟨room', h, rfl⟩

/-- Lookup in the rooms map after `removeUserCleanup`. -/
theorem alGet_removeUserCleanup_rooms (st : Storage) (uid : Nat) (rm r' : String) :
    alGet (removeUserCleanup st uid rm).rooms r' =
      match alGet st.rooms rm with
      | none => alGet st.rooms r'
      | some room =>
          if r' = rm then some { room with users := setDel room.users uid }
          else alGet st.rooms r' := by
  unfold removeUserCleanup
  cases hval : alGet st.rooms rm
  · rfl
  · dsimp only
    split
    · rw [alGet_alSet]
    · rw [alGet_alSet]

/-- Effect of `removeUserCleanup` on any room's message log: logs are
unchanged. -/
theorem removeUserCleanup_rooms_messages (st : Storage) (uid : Nat)
    (rm r' : String) (room' : Room)
    (h : alGet (removeUserCleanup st uid rm).rooms r' = some room') :
    ∃ room, alGet st.rooms r' = some room ∧ room'.messages = room.messages := by
  rw [alGet_removeUserCleanup_rooms] at h
  cases hval : alGet st.rooms rm
  · rw [hval] at h
    exact ⟨room', h, rfl⟩
  · rename_i room0
    rw [hval] at h
    dsimp only at h
    by_cases hrr : r' = rm
    · rw [if_pos hrr] at h
      cases h
      exact ⟨room0, hrr ▸ hval, rfl⟩
    · rw [if_neg hrr] at h
      exact ⟨room', h, rfl⟩

/-- Lookup in the rooms map after `addMessage`. -/
theorem alGet_addMessage_rooms (cap : Nat) (st : Storage) (rm : String)
    (m : Message) (r' : String) :
    alGet (addMessage cap st rm m).rooms r' =
      match alGet st.rooms rm with
      | none => alGet st.rooms r'
      | some room =>
          if r' = rm then
            some { room with messages := trimCap cap (room.messages ++ [m]) }
          else alGet st.rooms r' := by
  unfold addMessage
  cases hval : alGet st.rooms rm
  · rfl
  · dsimp only
    rw [alGet_alSet]

theorem trimCap_length_le (cap : Nat) (msgs : List Message) :
    (trimCap cap msgs).length ≤ cap := by
  unfold trimCap
  split
  · rename_i hgt
    simp only [takeLast, List.length_drop]
    omega
  · rename_i hle
    omega

theorem trimCap_subset (cap : Nat) (msgs : List Message) :
    ∀ x ∈ trimCap cap msgs, x ∈ msgs := by
  unfold trimCap
  split
  · intro x hx
    exact List.drop_subset _ msgs hx
  · intro x hx
    exact hx

theorem trimCap_eq_drop (cap : Nat) (msgs : List Message) :
    trimCap cap msgs = msgs.drop (msgs.length - min cap msgs.length) := by
  unfold trimCap takeLast
  split
  · rename_i hgt
    have : min cap msgs.length = cap := by omega
    rw [this]
  · rename_i hle
    have : msgs.length - min cap msgs.length = 0 := by omega
    rw [this, List.drop_zero]

/-!  ## Handler characterizations  -/

theorem joinRoom_failure (s : SState) (sock : Nat) (username room : String)
    (h : username = "" ∨ room = "") :
    joinRoom s sock username room =
      ([(.toSender sock, .errorEv "Username and room are required")], s) := by
  unfold joinRoom
  rw [if_pos h]

theorem joinRoom_success (s : SState) (sock : Nat) (username room : String)
    (hu : username ≠ "") (hr : room ≠ "") :
    joinRoom s sock username room =
      ([(.toSender sock, .message ⟨s.ctr + 1, "System",
          "Welcome to " ++ room ++ ", " ++ username ++ "!", s.ctr + 1, .system⟩),
        (.toRoomExceptSender room sock, .message ⟨s.ctr + 2, "System",
          username ++ " has joined the chat", s.ctr + 2, .system⟩),
        (.toSender sock, .roomHistory
          (getRoomMessages (addUser s.st s.ctr (jsTrim username) (jsTrim room) sock).2 room)),
        (.toRoom room, .onlineUsers
          (getUsersInRoom (addUser s.st s.ctr (jsTrim username) (jsTrim room) sock).2 room))],
       ⟨(addUser s.st s.ctr (jsTrim username) (jsTrim room) sock).2, s.ctr + 3⟩) := by
  unfold joinRoom
  rw [if_neg (by simp [hu, hr])]
  rfl

theorem sendMessage_noUser (cap : Nat) (s : SState) (sock : Nat) (body : String)
    (h : getUserBySocketId s.st sock = none) :
    sendMessage cap s sock body =
      ([(.toSender sock, .errorEv "User not found")], s) := by
  unfold sendMessage
  rw [h]

theorem sendMessage_success (cap : Nat) (s : SState) (sock : Nat) (body : String)
    (u : User) (h : getUserBySocketId s.st sock = some u)
    (hb : ¬(body = "" ∨ jsTrim body = "")) :
    sendMessage cap s sock body =
      ([(.toRoom u.room, .message ⟨s.ctr, u.username, jsTrim body, s.ctr, .user⟩)],
       ⟨addMessage cap s.st u.room ⟨s.ctr, u.username, jsTrim body, s.ctr, .user⟩,
        s.ctr + 1⟩) := by
  unfold sendMessage
  rw [h]
  dsimp only
  rw [if_neg hb]
  rfl

theorem sendMessage_emptyBody (cap : Nat) (s : SState) (sock : Nat) (body : String)
    (u : User) (h : getUserBySocketId s.st sock = some u)
    (hb : body = "" ∨ jsTrim body = "") :
    sendMessage cap s sock body =
      ([(.toSender sock, .errorEv "Message cannot be empty")], s) := by
  unfold sendMessage
  rw [h]
  dsimp only
  rw [if_pos hb]

theorem typingH_noUser (s : SState) (sock : Nat) (b : Bool)
    (h : getUserBySocketId s.st sock = none) :
    typingH s sock b = ([], s) := by
  unfold typingH
  rw [h]

theorem typingH_someUser (s : SState) (sock : Nat) (b : Bool) (u : User)
    (h : getUserBySocketId s.st sock = some u) :
    (typingH s sock b).2.st.rooms = s.st.rooms := by
  unfold typingH
  rw [h]
  rfl

theorem typingS_noUser (s : SState) (sock : Nat) (b : Bool)
    (h : getUserBySocketId s.st sock = none) :
    typingS s sock b = ([], s) := by
  unfold typingS
  rw [h]

theorem removeUser_noSocket (st : Storage) (sock : Nat)
    (h : alGet st.sockets sock = none) :
    removeUser st sock = (none, st) := by
  unfold removeUser
  rw [h]

theorem removeUser_noUser (st : Storage) (sock uid : Nat)
    (hs : alGet st.sockets sock = some uid) (h : alGet st.users uid = none) :
    removeUser st sock = (none, st) := by
  unfold removeUser
  rw [hs]
  dsimp only
  rw [h]

theorem removeUser_some (st : Storage) (sock uid : Nat) (u : User)
    (hs : alGet st.sockets sock = some uid) (h : alGet st.users uid = some u) :
    removeUser st sock =
      (some u,
       { removeUserCleanup st uid u.room with
           users := alDel (removeUserCleanup st uid u.room).users uid,
           sockets := alDel (removeUserCleanup st uid u.room).sockets sock }) := by
  unfold removeUser
  rw [hs]
  dsimp only
  rw [h]

theorem disconnectH_eq (s : SState) (sock : Nat) :
    disconnectH s sock =
      match removeUser s.st sock with
      | (none, st1) => ([], ⟨st1, s.ctr⟩)
      | (some user, st1) =>
          ([(.toRoomExceptSender user.room sock, .message ⟨s.ctr, "System",
              user.username ++ " has left the chat", s.ctr, .system⟩),
            (.toRoomExceptSender user.room sock,
              .onlineUsers (getUsersInRoom st1 user.room))],
           ⟨st1, s.ctr + 1⟩) := by
  unfold disconnectH
  cases hre : removeUser s.st sock with
  | mk u st1 => cases u <;> rfl

theorem leaveRoomH_eq (s : SState) (sock : Nat) :
    leaveRoomH s sock =
      match removeUser s.st sock with
      | (none, st1) => ([], ⟨st1, s.ctr⟩)
      | (some user, st1) =>
          ([(.toRoomExceptSender user.room sock, .message ⟨s.ctr, "System",
              user.username ++ " has left the chat", s.ctr, .system⟩),
            (.toRoomExceptSender user.room sock,
              .onlineUsers (getUsersInRoom st1 user.room)),
            (.toSender sock, .leftRoom)],
           ⟨st1, s.ctr + 1⟩) := by
  unfold leaveRoomH
  cases hre : removeUser s.st sock with
  | mk u st1 => cases u <;> rfl

theorem removeUser_rooms_messages (st : Storage) (sock : Nat) (r' : String)
    (room' : Room)
    (h : alGet (removeUser st sock).2.rooms r' = some room') :
    ∃ room, alGet st.rooms r' = some room ∧ room'.messages = room.messages := by
  cases hs : alGet st.sockets sock with
  | none =>
    rw [removeUser_noSocket st sock hs] at h
    exact ⟨room', h, rfl⟩
  | some uid =>
    cases hu : alGet st.users uid with
    | none =>
      rw [removeUser_noUser st sock uid hs hu] at h
      exact ⟨room', h, rfl⟩
    | some u =>
      rw [removeUser_some st sock uid u hs hu] at h
      exact removeUserCleanup_rooms_messages st uid u.room r' room' h

/-- Effect of one dispatched inbound event on any room's message log: the
log is empty (a fresh room), unchanged, or extends an existing log by one
`user`-kind message and is trimmed to the capacity. -/
theorem stepEv_rooms_messages (cap : Nat) (s : SState) (e : InEvent)
    (r' : String) (room' : Room)
    (h : alGet (stepEv cap s e).2.st.rooms r' = some room') :
    room'.messages = [] ∨
    (∃ room, alGet s.st.rooms r' = some room ∧ room'.messages = room.messages) ∨
    (∃ room m, alGet s.st.rooms r' = some room ∧ m.type = .user ∧
       room'.messages = trimCap cap (room.messages ++ [m])) := by
  cases e with
  | join sock username room =>
    by_cases hv : username = "" ∨ room = ""
    · rw [show stepEv cap s (.join sock username room) = joinRoom s sock username room from rfl,
        joinRoom_failure s sock username room hv] at h
      exact Or.inr (Or.inl ⟨room', h, rfl⟩)
    · push_neg at hv
      rw [show stepEv cap s (.join sock username room) = joinRoom s sock username room from rfl,
        joinRoom_success s sock username room hv.1 hv.2] at h
      rcases addUser_rooms_messages s.st s.ctr (jsTrim username) (jsTrim room) sock r' room' h with
        h0 | ⟨rm0, hrm, he⟩
      · exact Or.inl h0
      · exact Or.inr (Or.inl ⟨rm0, hrm, he⟩)
  | send sock body =>
    cases hu : getUserBySocketId s.st sock with
    | none =>
      rw [show stepEv cap s (.send sock body) = sendMessage cap s sock body from rfl,
        sendMessage_noUser cap s sock body hu] at h
      exact Or.inr (Or.inl ⟨room', h, rfl⟩)
    | some u =>
      by_cases hb : body = "" ∨ jsTrim body = ""
      · rw [show stepEv cap s (.send sock body) = sendMessage cap s sock body from rfl,
          sendMessage_emptyBody cap s sock body u hu hb] at h
        exact Or.inr (Or.inl ⟨room', h, rfl⟩)
      · rw [show stepEv cap s (.send sock body) = sendMessage cap s sock body from rfl,
          sendMessage_success cap s sock body u hu hb] at h
        dsimp only at h
        rw [alGet_addMessage_rooms] at h
        cases hval : alGet s.st.rooms u.room with
        | none =>
          rw [hval] at h
          exact Or.inr (Or.inl ⟨room', h, rfl⟩)
        | some room0 =>
          rw [hval] at h
          dsimp only at h
          by_cases hrr : r' = u.room
          · rw [if_pos hrr] at h
            cases h
            exact Or.inr (Or.inr ⟨room0, _, hrr ▸ hval, rfl, rfl⟩)
          · rw [if_neg hrr] at h
            exact Or.inr (Or.inl ⟨room', h, rfl⟩)
  | typing sock b =>
    cases hu : getUserBySocketId s.st sock with
    | none =>
      rw [show stepEv cap s (.typing sock b) = typingH s sock b from rfl,
        typingH_noUser s sock b hu] at h
      exact Or.inr (Or.inl ⟨room', h, rfl⟩)
    | some u =>
      rw [show (stepEv cap s (.typing sock b)).2.st.rooms = (typingH s sock b).2.st.rooms from rfl,
        typingH_someUser s sock b u hu] at h
      exact Or.inr (Or.inl ⟨room', h, rfl⟩)
  | leave sock =>
    rw [show stepEv cap s (.leave sock) = leaveRoomH s sock from rfl, leaveRoomH_eq] at h
    cases hre : removeUser s.st sock with
    | mk uo st1 =>
      rw [hre] at h
      cases uo with
      | none =>
        dsimp only at h
        have := removeUser_rooms_messages s.st sock r' room'
          (by rw [hre]; exact h)
        exact Or.inr (Or.inl this)
      | some u =>
        dsimp only at h
        have := removeUser_rooms_messages s.st sock r' room'
          (by rw [hre]; exact h)
        exact Or.inr (Or.inl this)
  | disconnect sock =>
    rw [show stepEv cap s (.disconnect sock) = disconnectH s sock from rfl, disconnectH_eq] at h
    cases hre : removeUser s.st sock with
    | mk uo st1 =>
      rw [hre] at h
      cases uo with
      | none =>
        dsimp only at h
        have := removeUser_rooms_messages s.st sock r' room'
          (by rw [hre]; exact h)
        exact Or.inr (Or.inl this)
      | some u =>
        dsimp only at h
        have := removeUser_rooms_messages s.st sock r' room'
          (by rw [hre]; exact h)
        exact Or.inr (Or.inl this)

theorem stepEv_bounded (cap : Nat) (s : SState) (e : InEvent)
    (hb : roomsBounded cap s.st) : roomsBounded cap (stepEv cap s e).2.st := by
  intro r room h
  rcases stepEv_rooms_messages cap s e r room h with h0 | ⟨rm0, hrm, he⟩ | ⟨rm0, m, hrm, _, he⟩
  · rw [h0]
    exact Nat.zero_le cap
  · rw [he]
    exact hb r rm0 hrm
  · rw [he]
    exact trimCap_length_le cap _

theorem runEvents_bounded (cap : Nat) (evs : List InEvent) (s : SState)
    (hb : roomsBounded cap s.st) : roomsBounded cap (runEvents cap s evs).st := by
  induction evs generalizing s with
  | nil => exact hb
  | cons e t ih => exact ih _ (stepEv_bounded cap s e hb)

theorem init_roomsBounded (cap : Nat) : roomsBounded cap init.st := by
  intro r room h
  cases h

theorem stepEv_userOnly (cap : Nat) (s : SState) (e : InEvent)
    (hb : roomsUserOnly s.st) : roomsUserOnly (stepEv cap s e).2.st := by
  intro r room h m hm
  rcases stepEv_rooms_messages cap s e r room h with h0 | ⟨rm0, hrm, he⟩ | ⟨rm0, m0, hrm, hty, he⟩
  · rw [h0] at hm
    cases hm
  · rw [he] at hm
    exact hb r rm0 hrm m hm
  · rw [he] at hm
    have hm' := trimCap_subset cap _ m hm
    rcases List.mem_append.mp hm' with hmem | hmem
    · exact hb r rm0 hrm m hmem
    · rw [List.mem_singleton.mp hmem]
      exact hty

theorem runEvents_userOnly (cap : Nat) (evs : List InEvent) (s : SState)
    (hb : roomsUserOnly s.st) : roomsUserOnly (runEvents cap s evs).st := by
  induction evs generalizing s with
  | nil => exact hb
  | cons e t ih => exact ih _ (stepEv_userOnly cap s e hb)

theorem init_roomsUserOnly : roomsUserOnly init.st := by
  intro r room h
  cases h

/-!  ## Claims  -/

/-- C1: every reachable room log is within capacity (100 on the plain
server); the secure `addMessage` keeps its target log within 50; an
append is FIFO — the new log is the suffix of the old log plus the new
message obtained by dropping oldest entries, never a reordering; and with
capacity 2, a joined user sending "a", "b", "c" leaves history exactly
["b", "c"]. -/
theorem chat_c1 :
    (∀ evs r room, alGet (runEvents 100 init evs).st.rooms r = some room →
       room.messages.length ≤ 100) ∧
    (∀ xssF st r m, (getRoomMessages (addMessageS xssF st r m) r).length ≤ 50) ∧
    (∀ cap st r m room, alGet st.rooms r = some room →
       getRoomMessages (addMessage cap st r m) r =
         (room.messages ++ [m]).drop
           ((room.messages ++ [m]).length - min cap (room.messages ++ [m]).length)) ∧
    ((getRoomMessages (runEvents 2 init
        [InEvent.join 1 "J1" "general", InEvent.send 1 "a",
         InEvent.send 1 "b", InEvent.send 1 "c"]).st "general").map
        (fun m => m.message) = ["b", "c"]) := by
  refine ⟨?_, ?_, ?_, ?_⟩
  · exact fun evs r room h => runEvents_bounded 100 evs init (init_roomsBounded 100) r room h
  · intro xssF st r m
    cases hval : alGet st.rooms r with
    | none =>
      unfold addMessageS
      rw [hval]
      unfold getRoomMessages
      rw [hval]
      exact Nat.zero_le 50
    | some room =>
      unfold addMessageS
      rw [hval]
      dsimp only
      unfold getRoomMessages
      dsimp only
      rw [alGet_alSet, if_pos rfl]
      exact trimCap_length_le 50 _
  · intro cap st r m room hval
    unfold addMessage
    rw [hval]
    dsimp only
    unfold getRoomMessages
    dsimp only
    rw [alGet_alSet, if_pos rfl]
    exact trimCap_eq_drop cap _
  · rfl

theorem chat_c1_witness :
    alGet (runEvents 100 init [InEvent.join 1 "A" "r"]).st.rooms "r" =
      some ⟨[0], []⟩ ∧
    (Room.mk [0] []).messages.length ≤ 100 :=
  ⟨rfl, chat_c1.1 [InEvent.join 1 "A" "r"] "r" ⟨[0], []⟩ rfl⟩

/-- C2 counterexample: with J1 (identity 0) present in the typing set of
room "general" and J2 a member of that room, the disconnect of J1 emits
no `typing` event at all — so the remaining members are never sent the
empty typing set in response to the disconnect, contrary to the claim. -/
theorem chat_c2_cex :
    alGet (runEvents 100 init
      [InEvent.join 1 "J1" "general", InEvent.join 2 "J2" "general",
       InEvent.typing 1 true]).st.typingUsers "general" = some [0] ∧
    ((stepEv 100 (runEvents 100 init
      [InEvent.join 1 "J1" "general", InEvent.join 2 "J2" "general",
       InEvent.typing 1 true]) (InEvent.disconnect 1)).1.all
        (fun p => !(isTypingOut p.2))) = true := by
  constructor
  · rfl
  · rfl

/-- C2 amended: the disconnect handler never emits a `typing` event, and
it does remove the disconnecting identity from its room's typing set
(when the room exists) so later typing broadcasts exclude it; the D =
2000 ms expiry timer lives only in the client (MessageInput), which sends
typing=false — removal of the indicator at other clients depends on that
signal (or a later typing event of another member) arriving. -/
theorem chat_c2 :
    (∀ (s : SState) (sock : Nat),
       ((disconnectH s sock).1.all (fun p => !(isTypingOut p.2))) = true) ∧
    (∀ (st : Storage) (sock uid : Nat) (u : User) (roomRec : Room),
       alGet st.sockets sock = some uid → alGet st.users uid = some u →
       alGet st.rooms u.room = some roomRec →
       ∀ t, alGet (removeUser st sock).2.typingUsers u.room = some t →
         uid ∉ t) := by
  constructor
  · intro s sock
    rw [disconnectH_eq]
    cases hre : removeUser s.st sock with
    | mk uo st1 =>
      cases uo with
      | none => rfl
      | some u => rfl
  · intro st sock uid u roomRec hs hu hroom t ht
    rw [removeUser_some st sock uid u hs hu] at ht
    dsimp only at ht
    unfold removeUserCleanup at ht
    rw [hroom] at ht
    dsimp only at ht
    cases htyp : alGet st.typingUsers u.room with
    | none =>
      rw [htyp] at ht
      dsimp only at ht
      rw [htyp] at ht
      cases ht
    | some tset =>
      rw [htyp] at ht
      dsimp only at ht
      rw [alGet_alSet, if_pos rfl] at ht
      cases ht
      intro hmem
      have := List.mem_filter.mp hmem
      simp at this

theorem chat_c2_witness :
    alGet (Storage.mk
        [(0, ⟨0, "J1", "general", 1⟩), (3, ⟨3, "J2", "general", 2⟩)]
        [("general", ⟨[0, 3], []⟩)] [(1, 0), (2, 3)]
        [("general", [0])]).sockets 1 = some 0 ∧
    (0 : Nat) ∉ ([] : List Nat) :=
  ⟨rfl,
   chat_c2.2 (Storage.mk
        [(0, ⟨0, "J1", "general", 1⟩), (3, ⟨3, "J2", "general", 2⟩)]
        [("general", ⟨[0, 3], []⟩)] [(1, 0), (2, 3)]
        [("general", [0])]) 1 0 ⟨0, "J1", "general", 1⟩ ⟨[0, 3], []⟩
     rfl rfl rfl [] rfl⟩

/-- C3 counterexample: after two joinRoom events on the same socket, the
users map holds two registered identities with the same socketId — the
claimed one-identity-per-session invariant fails in a reachable state. -/
theorem chat_c3_cex :
    ¬ oneIdentityPerSession (runEvents 100 init
        [InEvent.join 1 "A" "r", InEvent.join 1 "B" "r"]).st := by
  decide

/-- C3 amended: a second successful joinRoom on a session that already
has a registered identity creates a second identity and repoints the
socket mapping to it, leaving the first identity registered in the users
map with the same socketId — two registered identities for one socket. -/
theorem chat_c3 :
    ∀ (s : SState) (sock uid : Nat) (u : User) (username room : String),
      alGet s.st.users uid = some u → u.socketId = sock → uid ≠ s.ctr →
      username ≠ "" → room ≠ "" →
      alGet (joinRoom s sock username room).2.st.users uid = some u ∧
      alGet (joinRoom s sock username room).2.st.users s.ctr =
        some ⟨s.ctr, jsTrim username, jsTrim room, sock⟩ ∧
      alGet (joinRoom s sock username room).2.st.sockets sock = some s.ctr := by
  intro s sock uid u username room hu hsock hne hun hrm
  rw [joinRoom_success s sock username room hun hrm]
  refine ⟨?_, ?_, ?_⟩
  · dsimp only
    rw [addUser_users, alGet_alSet, if_neg hne]
    exact hu
  · dsimp only
    rw [addUser_users, alGet_alSet, if_pos rfl]
  · dsimp only
    rw [addUser_sockets, alGet_alSet, if_pos rfl]

theorem chat_c3_witness :
    alGet (runEvents 100 init [InEvent.join 1 "A" "r"]).st.users 0 =
      some ⟨0, "A", "r", 1⟩ ∧
    alGet (joinRoom (runEvents 100 init [InEvent.join 1 "A" "r"]) 1 "B" "r").2.st.users 0 =
      some ⟨0, "A", "r", 1⟩ ∧
    alGet (joinRoom (runEvents 100 init [InEvent.join 1 "A" "r"]) 1 "B" "r").2.st.users 3 =
      some ⟨3, "B", "r", 1⟩ ∧
    alGet (joinRoom (runEvents 100 init [InEvent.join 1 "A" "r"]) 1 "B" "r").2.st.sockets 1 =
      some 3 :=
  ⟨rfl,
   (chat_c3 (runEvents 100 init [InEvent.join 1 "A" "r"]) 1 0 ⟨0, "A", "r", 1⟩ "B" "r"
      rfl rfl (by decide) (by decide) (by decide)).1,
   (chat_c3 (runEvents 100 init [InEvent.join 1 "A" "r"]) 1 0 ⟨0, "A", "r", 1⟩ "B" "r"
      rfl rfl (by decide) (by decide) (by decide)).2.1,
   (chat_c3 (runEvents 100 init [InEvent.join 1 "A" "r"]) 1 0 ⟨0, "A", "r", 1⟩ "B" "r"
      rfl rfl (by decide) (by decide) (by decide)).2.2⟩

/-- C4: removeUser is idempotent — on any storage whose sockets and users
maps have duplicate-free keys, a second call with the same socket id
returns absent and leaves the state exactly as the first call left it;
and whenever the socket resolves to a registered user, the first call
returns that user and removes both the identity and the session
mapping. -/
theorem chat_c4 :
    ∀ (st : Storage) (sock : Nat),
      (st.sockets.map Prod.fst).Nodup → (st.users.map Prod.fst).Nodup →
      (removeUser (removeUser st sock).2 sock = (none, (removeUser st sock).2)) ∧
      (∀ uid u, alGet st.sockets sock = some uid → alGet st.users uid = some u →
         (removeUser st sock).1 = some u ∧
         alGet (removeUser st sock).2.users uid = none ∧
         alGet (removeUser st sock).2.sockets sock = none) := by
  intro st sock hns hnu
  constructor
  · cases hs : alGet st.sockets sock with
    | none =>
      rw [removeUser_noSocket st sock hs]
      exact removeUser_noSocket st sock hs
    | some uid =>
      cases hu : alGet st.users uid with
      | none =>
        rw [removeUser_noUser st sock uid hs hu]
        exact removeUser_noUser st sock uid hs hu
      | some u =>
        rw [removeUser_some st sock uid u hs hu]
        apply removeUser_noSocket
        dsimp only
        rw [removeUserCleanup_sockets]
        exact alGet_alDel_self st.sockets sock hns
  · intro uid u hs hu
    rw [removeUser_some st sock uid u hs hu]
    refine ⟨rfl, ?_, ?_⟩
    · dsimp only
      rw [removeUserCleanup_users]
      exact alGet_alDel_self st.users uid hnu
    · dsimp only
      rw [removeUserCleanup_sockets]
      exact alGet_alDel_self st.sockets sock hns

theorem chat_c4_witness :
    removeUser (removeUser (Storage.mk [(5, ⟨5, "A", "r", 1⟩)]
        [("r", ⟨[5], []⟩)] [(1, 5)] []) 1).2 1 =
      (none, (removeUser (Storage.mk [(5, ⟨5, "A", "r", 1⟩)]
        [("r", ⟨[5], []⟩)] [(1, 5)] []) 1).2) ∧
    (removeUser (Storage.mk [(5, ⟨5, "A", "r", 1⟩)]
        [("r", ⟨[5], []⟩)] [(1, 5)] []) 1).1 = some ⟨5, "A", "r", 1⟩ :=
  ⟨(chat_c4 (Storage.mk [(5, ⟨5, "A", "r", 1⟩)] [("r", ⟨[5], []⟩)] [(1, 5)] []) 1
      (by decide) (by decide)).1,
   ((chat_c4 (Storage.mk [(5, ⟨5, "A", "r", 1⟩)] [("r", ⟨[5], []⟩)] [(1, 5)] []) 1
      (by decide) (by decide)).2 5 ⟨5, "A", "r", 1⟩ rfl rfl).1⟩

/-- C5: in every state reachable by any sequence of inbound events, every
room's retained log holds only messages of kind `user` — system notices
(welcome, join, leave) are broadcast but never appended, so roomHistory
never replays them. -/
theorem chat_c5 :
    ∀ cap evs r room,
      alGet (runEvents cap init evs).st.rooms r = some room →
      ∀ m ∈ room.messages, m.type = .user :=
  fun cap evs r room h => runEvents_userOnly cap evs init init_roomsUserOnly r room h

theorem chat_c5_witness :
    alGet (runEvents 100 init
        [InEvent.join 1 "A" "r", InEvent.send 1 "hi"]).st.rooms "r" =
      some ⟨[0], [⟨3, "A", "hi", 3, .user⟩]⟩ ∧
    (∀ m ∈ (Room.mk [0] [⟨3, "A", "hi", 3, .user⟩]).messages, m.type = .user) :=
  ⟨rfl,
   chat_c5 100 [InEvent.join 1 "A" "r", InEvent.send 1 "hi"] "r"
     ⟨[0], [⟨3, "A", "hi", 3, .user⟩]⟩ rfl⟩

/-- C6: a sendMessage from a connection with no registered identity is
answered with exactly one error event ("User not found") to that
connection, with the whole server state unchanged; and after a
disconnect, the socket no longer resolves to a user, so a reused session
id is rejected the same way until a fresh join. -/
theorem chat_c6 :
    (∀ cap (s : SState) (sock : Nat) (body : String),
       getUserBySocketId s.st sock = none →
       sendMessage cap s sock body =
         ([(.toSender sock, .errorEv "User not found")], s)) ∧
    (∀ (s : SState) (sock : Nat), (s.st.sockets.map Prod.fst).Nodup →
       getUserBySocketId (disconnectH s sock).2.st sock = none) := by
  constructor
  · exact fun cap s sock body h => sendMessage_noUser cap s sock body h
  · intro s sock hns
    have hst : (disconnectH s sock).2.st = (removeUser s.st sock).2 := by
      rw [disconnectH_eq]
      cases hre : removeUser s.st sock with
      | mk uo st1 => cases uo <;> rfl
    rw [hst]
    cases hs : alGet s.st.sockets sock with
    | none =>
      rw [removeUser_noSocket s.st sock hs]
      unfold getUserBySocketId
      rw [hs]
      rfl
    | some uid =>
      cases hu : alGet s.st.users uid with
      | none =>
        rw [removeUser_noUser s.st sock uid hs hu]
        unfold getUserBySocketId
        rw [hs]
        exact hu
      | some u =>
        rw [removeUser_some s.st sock uid u hs hu]
        unfold getUserBySocketId
        dsimp only
        rw [removeUserCleanup_sockets, alGet_alDel_self s.st.sockets sock hns]
        rfl

theorem chat_c6_witness :
    getUserBySocketId init.st 1 = none ∧
    sendMessage 100 init 1 "hi" =
      ([(.toSender 1, .errorEv "User not found")], init) :=
  ⟨rfl, chat_c6.1 100 init 1 "hi" rfl⟩

/-- C7 counterexample: the name "a@b!!" fails the restricted character
set of the repository's own format constraints (the secure validators),
yet the plain server's joinRoom accepts it: no error event is emitted and
an identity is registered. -/
theorem chat_c7_cex :
    isValidUsername (fun s => s) "a@b!!" = false ∧
    ((joinRoom init 1 "a@b!!" "general").1.all
      (fun p => !(isErrorOut p.2))) = true ∧
    alGet (joinRoom init 1 "a@b!!" "general").2.st.users 0 =
      some ⟨0, "a@b!!", "general", 1⟩ := by
  refine ⟨rfl, rfl, rfl⟩

/-- C7 amended: the full format constraints (trim/truncate, length 2-20
for names and 2-30 for rooms, character class letters/digits/underscore/
whitespace) are enforced only by the secure server, where any failing
join is answered by exactly one error event to the offending connection
and the state is unchanged; the plain server checks only non-emptiness
of the raw strings, with the same error-to-sender-only, no-mutation
behaviour when that check fails. -/
theorem chat_c7 :
    (∀ xssF (s : SState) (sock : Nat) (username room : String),
       isValidUsername xssF username = false ∨ isValidRoomName xssF room = false →
       joinRoomS xssF s sock username room =
         ([(.toSender sock, .errorEv "Invalid username or room name")], s)) ∧
    (∀ (s : SState) (sock : Nat) (username room : String),
       username = "" ∨ room = "" →
       joinRoom s sock username room =
         ([(.toSender sock, .errorEv "Username and room are required")], s)) := by
  constructor
  · intro xssF s sock username room h
    have hc : ¬(isValidUsername xssF username = true) ∨
        ¬(isValidRoomName xssF room = true) := by
      rcases h with h | h
      · left
        simp [h]
      · right
        simp [h]
    unfold joinRoomS
    rw [if_pos hc]
  · exact fun s sock username room h => joinRoom_failure s sock username room h

theorem chat_c7_witness :
    isValidUsername (fun s => s) "x" = false ∧
    joinRoomS (fun s => s) init 1 "x" "general" =
      ([(.toSender 1, .errorEv "Invalid username or room name")], init) :=
  ⟨rfl,
   chat_c7.1 (fun s => s) init 1 "x" "general" (Or.inl rfl)⟩

/-- C8: every successful join emits, in order, exactly: a system welcome
to the sender only, a system joined-notice to the room minus the sender,
the retained history to the sender only, and the online-users list to the
whole room; on the concrete two-join scenario the first joiner gets
roomHistory=[] and onlineUsers=[J1], and the second join sends the notice
to the room minus J2 and the two-member list to the whole room. -/
theorem chat_c8 :
    (∀ (s : SState) (sock : Nat) (username room : String),
       username ≠ "" → room ≠ "" →
       joinRoom s sock username room =
         ([(.toSender sock, .message ⟨s.ctr + 1, "System",
             "Welcome to " ++ room ++ ", " ++ username ++ "!", s.ctr + 1, .system⟩),
           (.toRoomExceptSender room sock, .message ⟨s.ctr + 2, "System",
             username ++ " has joined the chat", s.ctr + 2, .system⟩),
           (.toSender sock, .roomHistory
             (getRoomMessages (addUser s.st s.ctr (jsTrim username) (jsTrim room) sock).2 room)),
           (.toRoom room, .onlineUsers
             (getUsersInRoom (addUser s.st s.ctr (jsTrim username) (jsTrim room) sock).2 room))],
          ⟨(addUser s.st s.ctr (jsTrim username) (jsTrim room) sock).2, s.ctr + 3⟩)) ∧
    ((stepEv 100 init (.join 1 "J1" "general")).1 =
      [(.toSender 1, .message ⟨1, "System", "Welcome to general, J1!", 1, .system⟩),
       (.toRoomExceptSender "general" 1, .message ⟨2, "System", "J1 has joined the chat", 2, .system⟩),
       (.toSender 1, .roomHistory []),
       (.toRoom "general", .onlineUsers [⟨0, "J1", "general", 1⟩])]) ∧
    ((stepEv 100 (stepEv 100 init (.join 1 "J1" "general")).2 (.join 2 "J2" "general")).1 =
      [(.toSender 2, .message ⟨4, "System", "Welcome to general, J2!", 4, .system⟩),
       (.toRoomExceptSender "general" 2, .message ⟨5, "System", "J2 has joined the chat", 5, .system⟩),
       (.toSender 2, .roomHistory []),
       (.toRoom "general", .onlineUsers
         [⟨0, "J1", "general", 1⟩, ⟨3, "J2", "general", 2⟩])]) := by
  refine ⟨?_, rfl, rfl⟩
  exact fun s sock username room hu hr => joinRoom_success s sock username room hu hr

theorem chat_c8_witness :
    ("J1" : String) ≠ "" ∧ ("general" : String) ≠ "" ∧
    joinRoom init 1 "J1" "general" =
      ([(.toSender 1, .message ⟨1, "System", "Welcome to general, J1!", 1, .system⟩),
        (.toRoomExceptSender "general" 1, .message ⟨2, "System",
          "J1 has joined the chat", 2, .system⟩),
        (.toSender 1, .roomHistory
          (getRoomMessages (addUser init.st 0 (jsTrim "J1") (jsTrim "general") 1).2 "general")),
        (.toRoom "general", .onlineUsers
          (getUsersInRoom (addUser init.st 0 (jsTrim "J1") (jsTrim "general") 1).2 "general"))],
       ⟨(addUser init.st 0 (jsTrim "J1") (jsTrim "general") 1).2, 3⟩) :=
  ⟨by decide, by decide, chat_c8.1 init 1 "J1" "general" (by decide) (by decide)⟩

/-- C9: on the plain server a whitespace-only (but non-empty) username
passes the truthiness validation, and because trimming happens after the
check, the identity is registered with an empty displayName; the join
then proceeds with the normal welcome and joined broadcasts. -/
theorem chat_c9 :
    ∀ (s : SState) (sock : Nat) (username room : String),
      username ≠ "" → jsTrim username = "" → room ≠ "" →
      alGet (joinRoom s sock username room).2.st.users s.ctr =
        some ⟨s.ctr, "", jsTrim room, sock⟩ ∧
      (joinRoom s sock username room).1 =
        [(.toSender sock, .message ⟨s.ctr + 1, "System",
            "Welcome to " ++ room ++ ", " ++ username ++ "!", s.ctr + 1, .system⟩),
         (.toRoomExceptSender room sock, .message ⟨s.ctr + 2, "System",
            username ++ " has joined the chat", s.ctr + 2, .system⟩),
         (.toSender sock, .roomHistory
            (getRoomMessages (addUser s.st s.ctr (jsTrim username) (jsTrim room) sock).2 room)),
         (.toRoom room, .onlineUsers
            (getUsersInRoom (addUser s.st s.ctr (jsTrim username) (jsTrim room) sock).2 room))] := by
  intro s sock username room hu htrim hr
  rw [joinRoom_success s sock username room hu hr]
  constructor
  · dsimp only
    rw [addUser_users, htrim, alGet_alSet, if_pos rfl]
  · rfl

theorem chat_c9_witness :
    (" " : String) ≠ "" ∧ jsTrim " " = "" ∧
    alGet (joinRoom init 1 " " "general").2.st.users 0 =
      some ⟨0, "", jsTrim "general", 1⟩ :=
  ⟨by decide, rfl,
   (chat_c9 init 1 " " "general" (by decide) rfl (by decide)).1⟩

/-- C10: a typing event from a connection with no registered identity is
silently dropped by both servers — no outbound event, state unchanged —
in contrast to sendMessage, which answers the same condition with an
error event to the sender. -/
theorem chat_c10 :
    (∀ (s : SState) (sock : Nat) (b : Bool),
       getUserBySocketId s.st sock = none → typingH s sock b = ([], s)) ∧
    (∀ (s : SState) (sock : Nat) (b : Bool),
       getUserBySocketId s.st sock = none → typingS s sock b = ([], s)) ∧
    (∀ cap (s : SState) (sock : Nat) (body : String),
       getUserBySocketId s.st sock = none →
       sendMessage cap s sock body =
         ([(.toSender sock, .errorEv "User not found")], s)) :=
  ⟨fun s sock b h => typingH_noUser s sock b h,
   fun s sock b h => typingS_noUser s sock b h,
   fun cap s sock body h => sendMessage_noUser cap s sock body h⟩

theorem chat_c10_witness :
    getUserBySocketId init.st 7 = none ∧
    typingH init 7 true = ([], init) :=
  ⟨rfl, chat_c10.1 init 7 true rfl⟩

end Chat
